import Mathlib

/-!
# insightcloudsec-client-go: the insights and users clients

A shallow embedding of `insights.go` and `users.go`.

* A Go `error` is `Option GoError` (`none` is `nil`); a Go multi-value return
  `(T, error)` is the pair `T × Err`, so that the value returned next to an
  error is visible.
* Every method runs against a `World`: the state of the remote side together
  with the log of the requests issued so far.  `Client.makeRequest` is the only
  place that touches it.
* `json.Marshal` is applied only to flat records of strings, booleans and
  integers, for which it has no error path; a request body is therefore carried
  as the record that is marshalled (`Payload`).  Decoding a response body can
  fail and is supplied by the client (`decode*` fields).
* Slices are lists, the nil slice being `[]`; a nil pointer is `none`.
* Go `int` and `int32` values are `Int`: the clients do no arithmetic on them.
-/

set_option linter.dupNamespace false

namespace InsightCloudSec

/-! ## Go runtime values -/

/-- A non-nil Go error value, identified by its message. -/
structure GoError where
  msg : String
deriving DecidableEq, Repr

/-- A Go slice: a list, the nil slice being `[]`. -/
abbrev Slice (α : Type) : Type := List α

/-- The Go `error` interface: `none` is `nil`. -/
abbrev Err := Option GoError

/-- Go `fmt.Errorf` applied to an already formatted message. -/
def fmt.Errorf (msg : String) : Err := some ⟨msg⟩

/-- Go `http.MethodGet`. -/
def http.MethodGet : String := "GET"

/-- Go `http.MethodPost`. -/
def http.MethodPost : String := "POST"

/-- Go `http.MethodDelete`. -/
def http.MethodDelete : String := "DELETE"

/-- Go `strconv.Itoa`, also the `%d` verb of `fmt.Sprintf`. -/
def strconv.Itoa (n : Int) : String := toString n

/-- A decoded `interface{}` value of a filter mapping; numbers keep their literal text. -/
inductive JsonValue where
  | null
  | bool (b : Bool)
  | number (lit : String)
  | string (s : String)
  | array (xs : List JsonValue)
  | object (kvs : List (String × JsonValue))

/-! ## Data transfer types (`insights.go` lines 9-22, `users.go` lines 36-137) -/

structure Insight where
  ID : Int := 0
  Name : String := ""
  Description : String := ""
  TemplateID : Int := 0
  OrgID : Int := 0
  Severity : Int := 0
  Scopes : List String := []
  Tags : List String := []
  ResourceTypes : List String := []
  Filters : List (List (String × JsonValue)) := []
  Timeseries : Bool := false
  TimeseriesCache : Int := 0

structure User where
  Name : String := ""
  Username : String := ""
  Email : String := ""
  Password : String := ""
  ConfirmPassword : String := ""
  AccessLevel : String := ""
  TwoFactorRequired : Bool := false
deriving DecidableEq, Repr

structure APIUser where
  Name : String := ""
  Username : String := ""
  Email : String := ""
  AuthenticationType : String := ""
deriving DecidableEq, Repr

structure APIUserResponse where
  ID : Int := 0
  OrgID : Int := 0
  Username : String := ""
  Name : String := ""
  APIKey : String := ""
deriving DecidableEq, Repr

structure APIKey_Response where
  ID : String := ""
  APIKey : String := ""
deriving DecidableEq, Repr

structure SAMLUser where
  Name : String := ""
  Username : String := ""
  Email : String := ""
  AccessLevel : String := ""
  AuthenticationType : String := ""
  AuthenticationServerID : Int := 0
deriving DecidableEq, Repr

structure UserDetails where
  Username : String := ""
  ID : Int := 0
  Created : String := ""
  Name : String := ""
  Email : String := ""
  ResourceID : String := ""
  TwoFactorEnabled : Bool := false
  TwoFactorRequired : Bool := false
  FailedLoginAttempts : Int := 0
  LastLogin : String := ""
  Suspended : Bool := false
  NavigationBlacklist : List String := []
  RequirePWReset : Bool := false
  ConsoleAccessDenied : Bool := false
  ActiveAPIKey : Bool := false
  Org : String := ""
  OrgID : Int := 0
  DomainAdmin : Bool := false
  DomainViewer : Bool := false
  OrgAdmin : Bool := false
  Groups : Int := 0
  AuthPluginExists : Bool := false
  OwnedResources : Int := 0
  TempPassword : String := ""
  TempPasswordExpiration : String := ""
deriving DecidableEq, Repr

structure UserList where
  Users : List UserDetails := []
  Count : Int := 0
deriving DecidableEq, Repr

structure UserIDPayload where
  UserID : Int := 0
deriving DecidableEq, Repr

structure UserIDPayloadString where
  UserID : String := ""
deriving DecidableEq, Repr

structure UsersMFAStatus where
  Enabled : Bool := false
  Required : Bool := false
deriving DecidableEq, Repr

structure OTP where
  Secret : String := ""
deriving DecidableEq, Repr

structure Success where
  Success : Bool := false
deriving DecidableEq, Repr

structure ConsoleDeniedRequest where
  UserID : String := ""
  Access : Bool := false
deriving DecidableEq, Repr

/-! ## Transport -/

/-- The record handed to `json.Marshal` for a request body. -/
inductive Payload where
  | user (u : User)
  | apiUser (u : APIUser)
  | samlUser (u : SAMLUser)
  | userID (p : UserIDPayload)
  | userIDString (p : UserIDPayloadString)
  | consoleDenied (p : ConsoleDeniedRequest)
deriving DecidableEq, Repr

/-- One call of the transport: method, path and optional body (`none` is a nil body). -/
structure Request where
  Method : String
  Path : String
  Body : Option Payload
deriving DecidableEq, Repr

/-- The part of `*http.Response` the clients read. -/
structure Response where
  StatusCode : Int
  Body : String
deriving DecidableEq, Repr

/-- Modelled from the spec: the shared transport behind `makeRequest` and the JSON decoders
are not part of the two source files.  The transport is a black box that, for a request and
the current remote state, yields either a response or an error, and a new remote state.
`ToLower` stands for Go `strings.ToLower`. -/
structure Client (σ : Type) where
  transport : Request → σ → Except GoError Response × σ
  decodeInsights : String → Except GoError (List Insight)
  decodeInsight : String → Except GoError Insight
  decodeInsight7Days : String → Except GoError (List (String × Int))
  decodeUserList : String → Except GoError UserList
  decodeUserDetails : String → Except GoError UserDetails
  decodeAPIUserResponse : String → Except GoError APIUserResponse
  decodeAPIKey_Response : String → Except GoError APIKey_Response
  decodeUsersMFAStatus : String → Except GoError UsersMFAStatus
  decodeOTP : String → Except GoError OTP
  decodeSuccess : String → Except GoError Success
  ToLower : String → String

/-- The remote state and the requests issued so far, oldest first. -/
structure World (σ : Type) where
  net : σ
  sent : List Request

/-- Modelled from the spec: `makeRequest` performs one call of the transport; the call is
recorded in the log. -/
def Client.makeRequest {σ : Type} (c : Client σ) (method path : String) (body : Option Payload)
    (w : World σ) : Except GoError Response × World σ :=
  let req : Request := ⟨method, path, body⟩
  let out := c.transport req w.net
  (out.1, ⟨out.2, w.sent ++ [req]⟩)

/-! ## `insights.go` -/

/-- Method `ListInsights`, lines 24-37. -/
def Client.ListInsights {σ : Type} (c : Client σ) (w : World σ) :
    (List Insight × Err) × World σ :=
  match c.makeRequest http.MethodGet "/v2/public/insights/list" none w with
  | (.error err, w1) => (([], some err), w1)
  | (.ok resp, w1) =>
    match c.decodeInsights resp.Body with
    | .error err => (([], some err), w1)
    | .ok ret => ((ret, none), w1)

/-- Method `GetInsight`, lines 40-53; the result is a pointer, `none` being nil. -/
def Client.GetInsight {σ : Type} (c : Client σ) (insight_id : Int) (insight_source : String)
    (w : World σ) : (Option Insight × Err) × World σ :=
  match c.makeRequest http.MethodGet
      ("/v2/public/insights/" ++ strconv.Itoa insight_id ++ "/" ++ insight_source) none w with
  | (.error err, w1) => ((none, some err), w1)
  | (.ok resp, w1) =>
    match c.decodeInsight resp.Body with
    | .error err => ((none, some err), w1)
    | .ok ret => ((some ret, none), w1)

/-- Method `GetInsight7Days`, lines 56-68; the nil map is `[]`. -/
def Client.GetInsight7Days {σ : Type} (c : Client σ) (insight_id : Int)
    (insight_source : String) (w : World σ) : (List (String × Int) × Err) × World σ :=
  match c.makeRequest http.MethodGet
      ("/v2/public/insights/" ++ strconv.Itoa insight_id ++ "/" ++ insight_source
        ++ "/insight-data-7-days") none w with
  | (.error err, w1) => (([], some err), w1)
  | (.ok resp, w1) =>
    match c.decodeInsight7Days resp.Body with
    | .error err => (([], some err), w1)
    | .ok ret => ((ret, none), w1)

/-! ## `users.go` -/

/-- Method `List`, lines 141-155. -/
def users.List {σ : Type} (c : Client σ) (w : World σ) : (UserList × Err) × World σ :=
  match c.makeRequest http.MethodGet "/v2/public/users/list" none w with
  | (.error err, w1) => (({}, some err), w1)
  | (.ok resp, w1) =>
    match c.decodeUserList resp.Body with
    | .error err => (({}, some err), w1)
    | .ok ret => ((ret, none), w1)

/-- Method `Create`, lines 157-190.  `user` is passed by value: the defaulting of
`ConfirmPassword` changes the local copy only. -/
def users.Create {σ : Type} (c : Client σ) (user : User) (w : World σ) :
    (UserDetails × Err) × World σ :=
  if user.AccessLevel = "" ∨ user.Name = "" ∨ user.Username = "" ∨ user.Email = "" then
    (({}, fmt.Errorf "[-] user's name, username, email, password and accesslevel must be set"), w)
  else
    let user : User :=
      if user.ConfirmPassword = "" then { user with ConfirmPassword := user.Password } else user
    if user.AccessLevel ≠ "BASIC_USER" ∧ user.AccessLevel ≠ "ORGANIZATION_ADMIN"
        ∧ user.AccessLevel ≠ "DOMAIN_VIEWER" ∧ user.AccessLevel ≠ "DOMAIN_ADMIN" then
      (({}, fmt.Errorf "[-] user.AccessLevel must be one of: BASIC_USER, ORGANIZATION_ADMIN, DOMAIN_VIEWER, or DOMAIN_ADMIN"), w)
    else
      match c.makeRequest http.MethodPost "/v2/public/user/create" (some (.user user)) w with
      | (.error err, w1) => (({}, some err), w1)
      | (.ok resp, w1) =>
        match c.decodeUserDetails resp.Body with
        | .error err => (({}, some err), w1)
        | .ok ret => ((ret, none), w1)

/-- Method `CreateAPIUser`, lines 192-215. -/
def users.CreateAPIUser {σ : Type} (c : Client σ) (api_user : APIUser) (w : World σ) :
    (APIUserResponse × Err) × World σ :=
  if api_user.Username = "" ∨ api_user.Email = "" ∨ api_user.Name = "" then
    (({}, fmt.Errorf "[-] user's name, username, email must be set"), w)
  else
    let api_user : APIUser := { api_user with AuthenticationType := "internal" }
    match c.makeRequest http.MethodPost "/v2/public/user/create_api_only_user"
        (some (.apiUser api_user)) w with
    | (.error err, w1) => (({}, some err), w1)
    | (.ok resp, w1) =>
      match c.decodeAPIUserResponse resp.Body with
      | .error err => (({}, some err), w1)
      | .ok ret => ((ret, none), w1)

/-- Method `CreateSAMLUser`, lines 217-233.  The final `return ret, err` reads the outer `err`,
which is the (nil) error of `makeRequest`: the decoder's error lives in the scope of the
`if` statement. -/
def users.CreateSAMLUser {σ : Type} (c : Client σ) (saml_user : SAMLUser) (w : World σ) :
    (UserDetails × Err) × World σ :=
  match c.makeRequest http.MethodPost "/v2/public/user/create" (some (.samlUser saml_user)) w with
  | (.error err, w1) => (({}, some err), w1)
  | (.ok resp, w1) =>
    let err : Err := none
    match c.decodeUserDetails resp.Body with
    | .error err => (({}, some err), w1)
    | .ok ret => ((ret, err), w1)

/-- Method `Delete`, lines 235-245.  On the error branch `resp` is not read (`||` short-circuits);
on a response the guard `resp.StatusCode != 200` returns `err`, which is nil there. -/
def users.Delete {σ : Type} (c : Client σ) (user_resource_id : String) (w : World σ) :
    Err × World σ :=
  match c.makeRequest http.MethodDelete
      ("/v2/prototype/user/" ++ user_resource_id ++ "/delete") none w with
  | (.error err, w1) => (some err, w1)
  | (.ok resp, w1) =>
    let err : Err := none
    if resp.StatusCode ≠ 200 then (err, w1) else (none, w1)

/-- The loop of `DeleteByUsername`, lines 257-262: every matching record overwrites `id`. -/
def users.DeleteByUsername_loop (lowered : String) : Slice UserDetails → String → String
  | [], id => id
  | user :: rest, id =>
    if user.Username = lowered then users.DeleteByUsername_loop lowered rest user.ResourceID
    else users.DeleteByUsername_loop lowered rest id

/-- Method `DeleteByUsername`, lines 247-274. -/
def users.DeleteByUsername {σ : Type} (c : Client σ) (username : String) (w : World σ) :
    Err × World σ :=
  match users.List c w with
  | ((_, some err), w1) => (some err, w1)
  | ((listing, none), w1) =>
    let id := users.DeleteByUsername_loop (c.ToLower username) listing.Users ""
    if id = "" then (fmt.Errorf "[-] ERROR: Username not found", w1)
    else
      match users.Delete c id w1 with
      | (some err, w2) => (some err, w2)
      | (none, w2) => (none, w2)

/-- Method `CurrentUserInfo`, lines 276-288. -/
def users.CurrentUserInfo {σ : Type} (c : Client σ) (w : World σ) :
    (UserDetails × Err) × World σ :=
  match c.makeRequest http.MethodGet "/v2/public/user/info" none w with
  | (.error err, w1) => (({}, some err), w1)
  | (.ok resp, w1) =>
    match c.decodeUserDetails resp.Body with
    | .error err => (({}, some err), w1)
    | .ok user => ((user, none), w1)

/-- Method `Get2FAStatus`, lines 290-308; the final `return ret, err` reads the outer, nil `err`. -/
def users.Get2FAStatus {σ : Type} (c : Client σ) (user_id : Int) (w : World σ) :
    (UsersMFAStatus × Err) × World σ :=
  let id : UserIDPayload := { UserID := user_id }
  match c.makeRequest http.MethodPost "/v2/public/user/tfa_state" (some (.userID id)) w with
  | (.error err, w1) => (({}, some err), w1)
  | (.ok resp, w1) =>
    let err : Err := none
    match c.decodeUsersMFAStatus resp.Body with
    | .error err => (({}, some err), w1)
    | .ok ret => ((ret, err), w1)

/-- Method `Enable2FACurrentUser`, lines 310-320. -/
def users.Enable2FACurrentUser {σ : Type} (c : Client σ) (w : World σ) :
    (OTP × Err) × World σ :=
  match c.makeRequest http.MethodPost "/v2/public/user/tfa_enable" none w with
  | (.error err, w1) => (({}, some err), w1)
  | (.ok resp, w1) =>
    match c.decodeOTP resp.Body with
    | .error err => (({}, some err), w1)
    | .ok ret => ((ret, none), w1)

/-- Method `Disable2FA`, lines 322-342. -/
def users.Disable2FA {σ : Type} (c : Client σ) (user_id : Int) (w : World σ) :
    Err × World σ :=
  match c.makeRequest http.MethodPost "/v2/public/user/tfa_disable"
      (some (.userID { UserID := user_id })) w with
  | (.error err, w1) => (some err, w1)
  | (.ok resp, w1) =>
    match c.decodeSuccess resp.Body with
    | .error err => (some err, w1)
    | .ok ret =>
      if ret.Success then (none, w1)
      else (fmt.Errorf "ERROR: API Returned a failure attempting to disable", w1)

/-- Method `ConvertToAPIOnly`, lines 344-359. -/
def users.ConvertToAPIOnly {σ : Type} (c : Client σ) (user_id : Int) (w : World σ) :
    (APIKey_Response × Err) × World σ :=
  match c.makeRequest http.MethodPost "/v2/public/user/update_to_api_only_user"
      (some (.userIDString { UserID := strconv.Itoa user_id })) w with
  | (.error err, w1) => (({}, some err), w1)
  | (.ok resp, w1) =>
    match c.decodeAPIKey_Response resp.Body with
    | .error err => (({}, some err), w1)
    | .ok ret => ((ret, none), w1)

/-- Method `SetConsoleAccess`, lines 361-372. -/
def users.SetConsoleAccess {σ : Type} (c : Client σ) (user_id : Int) (access : Bool)
    (w : World σ) : Err × World σ :=
  match c.makeRequest http.MethodPost "/v2/public/user/update_console_access"
      (some (.consoleDenied { UserID := strconv.Itoa user_id, Access := access })) w with
  | (.error err, w1) => (some err, w1)
  | (.ok _, w1) => (none, w1)

/-- Method `DeactivateAPIKeys`, lines 374-384. -/
def users.DeactivateAPIKeys {σ : Type} (c : Client σ) (user_id : Int) (w : World σ) :
    Err × World σ :=
  match c.makeRequest http.MethodPost "/v2/public/apikey/deactivate"
      (some (.userIDString { UserID := strconv.Itoa user_id })) w with
  | (.error err, w1) => (some err, w1)
  | (.ok _, w1) => (none, w1)

/-- The loop of `GetUserByUsername`, lines 392-396: the first match returns. -/
def users.GetUserByUsername_loop (username : String) : Slice UserDetails → Option UserDetails
  | [] => none
  | user :: rest =>
    if user.Username = username then some user else users.GetUserByUsername_loop username rest

/-- Method `GetUserByUsername`, lines 386-399; `u.client.Users.List()` is the `List` above. -/
def users.GetUserByUsername {σ : Type} (c : Client σ) (username : String) (w : World σ) :
    (UserDetails × Err) × World σ :=
  match users.List c w with
  | ((_, some err), w1) => (({}, some err), w1)
  | ((listOfUsers, none), w1) =>
    match users.GetUserByUsername_loop username listOfUsers.Users with
    | some user => ((user, none), w1)
    | none => (({}, fmt.Errorf ("[-] ERROR: Found no user with username " ++ username)), w1)

/-- The loop of `GetUserByID`, lines 407-411: the first match returns. -/
def users.GetUserByID_loop (user_id : Int) : Slice UserDetails → Option UserDetails
  | [] => none
  | user :: rest =>
    if user.ID = user_id then some user else users.GetUserByID_loop user_id rest

/-- Method `GetUserByID`, lines 401-414; `u.client.Users.List()` is the `List` above. -/
def users.GetUserByID {σ : Type} (c : Client σ) (user_id : Int) (w : World σ) :
    (UserDetails × Err) × World σ :=
  match users.List c w with
  | ((_, some err), w1) => (({}, some err), w1)
  | ((listOfUsers, none), w1) =>
    match users.GetUserByID_loop user_id listOfUsers.Users with
    | some user => ((user, none), w1)
    | none =>
      (({}, fmt.Errorf ("[-] ERROR: Found no user with user_id: " ++ strconv.Itoa user_id)), w1)

/-! ## Concrete clients

Clients over a remote side without state, used to run the methods on explicit inputs. -/

/-- ASCII lowering, which is what `strings.ToLower` does on ASCII input. -/
def asciiLower (s : String) : String := String.mk (s.data.map Char.toLower)

/-- A client whose transport refuses every request and whose decoders reject every body. -/
def offline : Client Unit where
  transport := fun _ s => (.error ⟨"connection refused"⟩, s)
  decodeInsights := fun _ => .error ⟨"unexpected end of JSON input"⟩
  decodeInsight := fun _ => .error ⟨"unexpected end of JSON input"⟩
  decodeInsight7Days := fun _ => .error ⟨"unexpected end of JSON input"⟩
  decodeUserList := fun _ => .error ⟨"unexpected end of JSON input"⟩
  decodeUserDetails := fun _ => .error ⟨"unexpected end of JSON input"⟩
  decodeAPIUserResponse := fun _ => .error ⟨"unexpected end of JSON input"⟩
  decodeAPIKey_Response := fun _ => .error ⟨"unexpected end of JSON input"⟩
  decodeUsersMFAStatus := fun _ => .error ⟨"unexpected end of JSON input"⟩
  decodeOTP := fun _ => .error ⟨"unexpected end of JSON input"⟩
  decodeSuccess := fun _ => .error ⟨"unexpected end of JSON input"⟩
  ToLower := asciiLower

/-- A remote side that answers every request with the given status and body. -/
def answering (status : Int) (body : String) : Client Unit :=
  { offline with transport := fun _ s => (.ok ⟨status, body⟩, s) }

/-- The world before any request. -/
def fresh : World Unit := ⟨(), []⟩

/-- A remote side whose listing decodes to three users with the given IDs. -/
def listingOfIDs (a b d : Int) : Client Unit :=
  { answering 200 "users" with
    decodeUserList := fun body =>
      if body = "users" then
        .ok { Users := [{ Username := "ann", ID := a }, { Username := "bob", ID := b },
                        { Username := "dee", ID := d }], Count := 3 }
      else .error ⟨"unexpected end of JSON input"⟩ }

/-- A remote side whose listing decodes to one user, "jdoe", with the given resource ID. -/
def listingOfJdoe (resourceID : String) : Client Unit :=
  { answering 200 "users" with
    decodeUserList := fun body =>
      if body = "users" then
        .ok { Users := [{ Username := "jdoe", ID := 7, ResourceID := resourceID }], Count := 1 }
      else .error ⟨"unexpected end of JSON input"⟩ }

/-! ## Result pairs -/

/-- A Go result pair carries no partial result: a non-nil error comes with the zero value,
and a value other than the zero value comes with a nil error. -/
def ZeroOnError {α : Type} (zero : α) (r : α × Err) : Prop :=
  (r.2 ≠ none → r.1 = zero) ∧ (r.1 ≠ zero → r.2 = none)

/-! ## How `Create` runs -/

/-- Running `Create` on a user that passes both checks: one call, then the decoder. -/
theorem Create_of_valid {σ : Type} (c : Client σ) (user : User) (w : World σ)
    (hn : user.Name ≠ "") (hu : user.Username ≠ "") (he : user.Email ≠ "")
    (ha : user.AccessLevel = "BASIC_USER" ∨ user.AccessLevel = "ORGANIZATION_ADMIN"
      ∨ user.AccessLevel = "DOMAIN_VIEWER" ∨ user.AccessLevel = "DOMAIN_ADMIN") :
    users.Create c user w =
      match c.makeRequest "POST" "/v2/public/user/create"
          (some (.user (if user.ConfirmPassword = "" then
            { user with ConfirmPassword := user.Password } else user))) w with
      | (.error err, w1) => (({}, some err), w1)
      | (.ok resp, w1) =>
        match c.decodeUserDetails resp.Body with
        | .error err => (({}, some err), w1)
        | .ok ret => ((ret, none), w1) := by
  have hal : user.AccessLevel ≠ "" := by
    rcases ha with h | h | h | h <;> rw [h] <;> decide
  have hacc : ¬ (user.AccessLevel ≠ "BASIC_USER" ∧ user.AccessLevel ≠ "ORGANIZATION_ADMIN"
      ∧ user.AccessLevel ≠ "DOMAIN_VIEWER" ∧ user.AccessLevel ≠ "DOMAIN_ADMIN") := by
    rintro ⟨h1, h2, h3, h4⟩
    rcases ha with h | h | h | h <;> contradiction
  unfold users.Create
  rw [if_neg (by simp [hal, hn, hu, he])]
  by_cases hc : user.ConfirmPassword = ""
  · simp only [hc, if_true]
    rw [if_neg hacc]
    rfl
  · simp only [hc, if_false]
    rw [if_neg hacc]
    rfl

/-- Running `Create` on a user that fails a check: the matching error, the world untouched. -/
theorem Create_of_invalid {σ : Type} (c : Client σ) (user : User) (w : World σ)
    (h : user.Name = "" ∨ user.Username = "" ∨ user.Email = "" ∨ user.AccessLevel = ""
      ∨ (user.AccessLevel ≠ "BASIC_USER" ∧ user.AccessLevel ≠ "ORGANIZATION_ADMIN"
        ∧ user.AccessLevel ≠ "DOMAIN_VIEWER" ∧ user.AccessLevel ≠ "DOMAIN_ADMIN")) :
    users.Create c user w =
        (({}, fmt.Errorf "[-] user's name, username, email, password and accesslevel must be set"), w)
      ∨ users.Create c user w =
        (({}, fmt.Errorf "[-] user.AccessLevel must be one of: BASIC_USER, ORGANIZATION_ADMIN, DOMAIN_VIEWER, or DOMAIN_ADMIN"), w) := by
  unfold users.Create
  by_cases h0 : user.AccessLevel = "" ∨ user.Name = "" ∨ user.Username = "" ∨ user.Email = ""
  · left
    rw [if_pos h0]
  · right
    rw [if_neg h0]
    have hacc : user.AccessLevel ≠ "BASIC_USER" ∧ user.AccessLevel ≠ "ORGANIZATION_ADMIN"
        ∧ user.AccessLevel ≠ "DOMAIN_VIEWER" ∧ user.AccessLevel ≠ "DOMAIN_ADMIN" := by
      rcases h with h | h | h | h | h
      · exact absurd (Or.inr (Or.inl h)) h0
      · exact absurd (Or.inr (Or.inr (Or.inl h))) h0
      · exact absurd (Or.inr (Or.inr (Or.inr h))) h0
      · exact absurd (Or.inl h) h0
      · exact h
    by_cases hc : user.ConfirmPassword = ""
    · simp only [hc, if_true]
      rw [if_pos hacc]
    · simp only [hc, if_false]
      rw [if_pos hacc]

/-! ## The claims -/

/-- C1: `Create` validation.  When Name, Username, Email and AccessLevel are non-empty and
AccessLevel is one of BASIC_USER, ORGANIZATION_ADMIN, DOMAIN_VIEWER, DOMAIN_ADMIN, `Create`
issues exactly one request, `POST /v2/public/user/create`, and returns what the transport and
the decoder give for it: the decoded record with a nil error, or the transport's or decoder's
error.  When one of the four fields is empty or AccessLevel is outside the set, `Create` issues
no request and returns the zero record with one of its two validation errors. -/
theorem Create_validation {σ : Type} (c : Client σ) (user : User) (w : World σ) :
    ((user.Name ≠ "" ∧ user.Username ≠ "" ∧ user.Email ≠ "" ∧ user.AccessLevel ≠ ""
        ∧ (user.AccessLevel = "BASIC_USER" ∨ user.AccessLevel = "ORGANIZATION_ADMIN"
          ∨ user.AccessLevel = "DOMAIN_VIEWER" ∨ user.AccessLevel = "DOMAIN_ADMIN")) →
      ∃ body : Payload,
        (users.Create c user w).2.sent
            = w.sent ++ [⟨"POST", "/v2/public/user/create", some body⟩]
        ∧ (users.Create c user w).2.net
            = (c.transport ⟨"POST", "/v2/public/user/create", some body⟩ w.net).2
        ∧ (∀ e, (c.transport ⟨"POST", "/v2/public/user/create", some body⟩ w.net).1 = .error e →
            (users.Create c user w).1 = ({}, some e))
        ∧ (∀ resp e,
            (c.transport ⟨"POST", "/v2/public/user/create", some body⟩ w.net).1 = .ok resp →
            c.decodeUserDetails resp.Body = .error e →
            (users.Create c user w).1 = ({}, some e))
        ∧ (∀ resp ret,
            (c.transport ⟨"POST", "/v2/public/user/create", some body⟩ w.net).1 = .ok resp →
            c.decodeUserDetails resp.Body = .ok ret →
            (users.Create c user w).1 = (ret, none)))
    ∧ ((user.Name = "" ∨ user.Username = "" ∨ user.Email = "" ∨ user.AccessLevel = ""
        ∨ (user.AccessLevel ≠ "BASIC_USER" ∧ user.AccessLevel ≠ "ORGANIZATION_ADMIN"
          ∧ user.AccessLevel ≠ "DOMAIN_VIEWER" ∧ user.AccessLevel ≠ "DOMAIN_ADMIN")) →
      (users.Create c user w).2.sent = w.sent
        ∧ (users.Create c user w).2.net = w.net
        ∧ (users.Create c user w).1.1 = {}
        ∧ ((users.Create c user w).1.2
              = fmt.Errorf "[-] user's name, username, email, password and accesslevel must be set"
          ∨ (users.Create c user w).1.2
              = fmt.Errorf "[-] user.AccessLevel must be one of: BASIC_USER, ORGANIZATION_ADMIN, DOMAIN_VIEWER, or DOMAIN_ADMIN")) := by
  constructor
  · rintro ⟨hn, hu, he, -, ha⟩
    refine ⟨.user (if user.ConfirmPassword = "" then
      { user with ConfirmPassword := user.Password } else user), ?_⟩
    rw [Create_of_valid c user w hn hu he ha]
    simp only [Client.makeRequest]
    refine ⟨?_, ?_, ?_, ?_, ?_⟩
    · split <;> rename_i heq <;> simp only [Prod.mk.injEq] at heq
      · rw [← heq.2]
      · split <;> rw [← heq.2]
    · split <;> rename_i heq <;> simp only [Prod.mk.injEq] at heq
      · rw [← heq.2]
      · split <;> rw [← heq.2]
    · intro e h
      simp only [h]
    · intro resp e h hd
      simp only [h, hd]
    · intro resp ret h hd
      simp only [h, hd]
  · intro h
    rcases Create_of_invalid c user w h with h1 | h1 <;> rw [h1]
    · exact ⟨rfl, rfl, rfl, Or.inl rfl⟩
    · exact ⟨rfl, rfl, rfl, Or.inr rfl⟩

/-- C1 at a complete BASIC_USER against a remote side that answers 200 with body "ok", and at
a user without a name. -/
theorem Create_validation_witness :
    (∃ body : Payload,
        (users.Create (answering 200 "ok")
            { Name := "J", Username := "jdoe", Email := "j@x.io", Password := "p1",
              AccessLevel := "BASIC_USER" } fresh).2.sent
          = fresh.sent ++ [⟨"POST", "/v2/public/user/create", some body⟩])
    ∧ (users.Create (answering 200 "ok")
          { Username := "jdoe", Email := "j@x.io", AccessLevel := "BASIC_USER" } fresh).2.sent
        = fresh.sent :=
  ⟨((Create_validation (answering 200 "ok")
        { Name := "J", Username := "jdoe", Email := "j@x.io", Password := "p1",
          AccessLevel := "BASIC_USER" } fresh).1
      ⟨by decide, by decide, by decide, by decide, Or.inl rfl⟩).imp
      (fun _ h => h.1),
   ((Create_validation (answering 200 "ok")
        { Username := "jdoe", Email := "j@x.io", AccessLevel := "BASIC_USER" } fresh).2
      (Or.inl rfl)).1⟩

/-- C2: `Create` password defaulting.  For a user that passes validation, the one request
carries a user payload whose ConfirmPassword is the caller's Password when the caller left
ConfirmPassword empty and the caller's ConfirmPassword otherwise; every other field of the
payload is the caller's. -/
theorem Create_confirm_password {σ : Type} (c : Client σ) (user : User) (w : World σ)
    (hn : user.Name ≠ "") (hu : user.Username ≠ "") (he : user.Email ≠ "")
    (ha : user.AccessLevel = "BASIC_USER" ∨ user.AccessLevel = "ORGANIZATION_ADMIN"
      ∨ user.AccessLevel = "DOMAIN_VIEWER" ∨ user.AccessLevel = "DOMAIN_ADMIN") :
    ∃ p : User,
      (users.Create c user w).2.sent
          = w.sent ++ [⟨"POST", "/v2/public/user/create", some (.user p)⟩]
      ∧ (user.ConfirmPassword = "" → p.ConfirmPassword = user.Password)
      ∧ (user.ConfirmPassword ≠ "" → p.ConfirmPassword = user.ConfirmPassword)
      ∧ p.Name = user.Name ∧ p.Username = user.Username ∧ p.Email = user.Email
      ∧ p.Password = user.Password ∧ p.AccessLevel = user.AccessLevel
      ∧ p.TwoFactorRequired = user.TwoFactorRequired := by
  refine ⟨if user.ConfirmPassword = "" then
    { user with ConfirmPassword := user.Password } else user, ?_, ?_⟩
  · rw [Create_of_valid c user w hn hu he ha]
    simp only [Client.makeRequest]
    split <;> rename_i heq <;> simp only [Prod.mk.injEq] at heq
    · rw [← heq.2]
    · split <;> rw [← heq.2]
  · by_cases hc : user.ConfirmPassword = ""
    · simp [hc]
    · simp [hc]

/-- C2 at Password "p1" with an empty ConfirmPassword. -/
theorem Create_confirm_password_witness :
    ∃ p : User,
      (users.Create (answering 200 "ok")
          { Name := "J", Username := "jdoe", Email := "j@x.io", Password := "p1",
            AccessLevel := "DOMAIN_ADMIN" } fresh).2.sent
          = fresh.sent ++ [⟨"POST", "/v2/public/user/create", some (.user p)⟩]
      ∧ p.ConfirmPassword = "p1" :=
  (Create_confirm_password (answering 200 "ok")
      { Name := "J", Username := "jdoe", Email := "j@x.io", Password := "p1",
        AccessLevel := "DOMAIN_ADMIN" } fresh
      (by decide) (by decide) (by decide) (Or.inr (Or.inr (Or.inr rfl)))).imp
    (fun _ h => ⟨h.1, h.2.1 rfl⟩)

/-- C3: `CreateAPIUser`.  When Username, Email and Name are non-empty, the one request is
`POST /v2/public/user/create_api_only_user` with an API-user payload whose
AuthenticationType is "internal", whatever the caller set, and whose Name, Username and Email
are the caller's.  When one of the three is empty, no request is issued and the zero record is
returned with the validation error. -/
theorem CreateAPIUser_internal {σ : Type} (c : Client σ) (api_user : APIUser) (w : World σ) :
    ((api_user.Username ≠ "" ∧ api_user.Email ≠ "" ∧ api_user.Name ≠ "") →
      (users.CreateAPIUser c api_user w).2.sent
        = w.sent ++ [⟨"POST", "/v2/public/user/create_api_only_user",
            some (.apiUser { Name := api_user.Name, Username := api_user.Username,
                             Email := api_user.Email, AuthenticationType := "internal" })⟩])
    ∧ ((api_user.Username = "" ∨ api_user.Email = "" ∨ api_user.Name = "") →
      users.CreateAPIUser c api_user w
        = (({}, fmt.Errorf "[-] user's name, username, email must be set"), w)) := by
  constructor
  · rintro ⟨hu, he, hn⟩
    unfold users.CreateAPIUser
    rw [if_neg (by simp [hu, he, hn])]
    simp only [Client.makeRequest]
    split <;> rename_i heq <;> simp only [Prod.mk.injEq] at heq
    · rw [← heq.2]
      rfl
    · split <;> rw [← heq.2] <;> rfl
  · intro h
    unfold users.CreateAPIUser
    rw [if_pos h]

/-- C3 at a caller who set AuthenticationType to "saml", and at a caller without an email. -/
theorem CreateAPIUser_internal_witness :
    (users.CreateAPIUser (answering 200 "ok")
        { Name := "Bot", Username := "bot", Email := "bot@x.io", AuthenticationType := "saml" }
        fresh).2.sent
      = fresh.sent ++ [⟨"POST", "/v2/public/user/create_api_only_user",
          some (.apiUser { Name := "Bot", Username := "bot", Email := "bot@x.io",
                           AuthenticationType := "internal" })⟩]
    ∧ users.CreateAPIUser (answering 200 "ok") { Name := "Bot", Username := "bot" } fresh
      = (({}, fmt.Errorf "[-] user's name, username, email must be set"), fresh) :=
  ⟨(CreateAPIUser_internal (answering 200 "ok")
      { Name := "Bot", Username := "bot", Email := "bot@x.io", AuthenticationType := "saml" }
      fresh).1 ⟨by decide, by decide, by decide⟩,
   (CreateAPIUser_internal (answering 200 "ok") { Name := "Bot", Username := "bot" }
      fresh).2 (Or.inr (Or.inl rfl))⟩

/-- C4: `Disable2FA`.  When the transport call succeeds and the body decodes, the returned
error is nil exactly when the decoded success flag is true; for a decoded false flag it is the
non-nil failure error. -/
theorem Disable2FA_success_flag {σ : Type} (c : Client σ) (user_id : Int) (w : World σ)
    (resp : Response) (ret : Success)
    (hresp : (c.transport ⟨"POST", "/v2/public/user/tfa_disable",
        some (.userID { UserID := user_id })⟩ w.net).1 = .ok resp)
    (hdec : c.decodeSuccess resp.Body = .ok ret) :
    ((users.Disable2FA c user_id w).1 = none ↔ ret.Success = true)
    ∧ (ret.Success = false →
        (users.Disable2FA c user_id w).1
          = fmt.Errorf "ERROR: API Returned a failure attempting to disable"
        ∧ (users.Disable2FA c user_id w).1 ≠ none) := by
  have hrun : (users.Disable2FA c user_id w).1
      = if ret.Success then none
        else fmt.Errorf "ERROR: API Returned a failure attempting to disable" := by
    unfold users.Disable2FA
    simp only [Client.makeRequest, http.MethodPost, hresp, hdec]
    split <;> rfl
  rw [hrun]
  cases hs : ret.Success <;> simp [fmt.Errorf]

/-- C4 at a remote side that answers 200 with a body decoding to a false success flag. -/
theorem Disable2FA_success_flag_witness :
    (users.Disable2FA
        { answering 200 "\x7b\"success\": false\x7d" with
          decodeSuccess := fun body =>
            if body = "\x7b\"success\": false\x7d" then .ok { Success := false }
            else .error ⟨"unexpected end of JSON input"⟩ }
        7 fresh).1
      = fmt.Errorf "ERROR: API Returned a failure attempting to disable" :=
  ((Disable2FA_success_flag
      { answering 200 "\x7b\"success\": false\x7d" with
        decodeSuccess := fun body =>
          if body = "\x7b\"success\": false\x7d" then .ok { Success := false }
          else .error ⟨"unexpected end of JSON input"⟩ }
      7 fresh ⟨200, "\x7b\"success\": false\x7d"⟩ { Success := false } rfl rfl).2 rfl).1

/-- C7: `Delete` propagates the transport's error.  Whenever the transport call returns an
error, `Delete` returns that same error, after exactly that one call. -/
theorem Delete_propagates_transport_error {σ : Type} (c : Client σ) (user_resource_id : String)
    (w : World σ) (e : GoError)
    (herr : (c.transport ⟨"DELETE", "/v2/prototype/user/" ++ user_resource_id ++ "/delete",
        none⟩ w.net).1 = .error e) :
    (users.Delete c user_resource_id w).1 = some e
    ∧ (users.Delete c user_resource_id w).2.sent
        = w.sent ++ [⟨"DELETE", "/v2/prototype/user/" ++ user_resource_id ++ "/delete", none⟩] := by
  unfold users.Delete
  simp only [Client.makeRequest, http.MethodDelete, herr]
  constructor <;> trivial

/-- C7 at a transport that refuses the connection. -/
theorem Delete_propagates_transport_error_witness :
    (users.Delete offline "divvyuser:7" fresh).1 = some ⟨"connection refused"⟩ :=
  (Delete_propagates_transport_error offline "divvyuser:7" fresh ⟨"connection refused"⟩ rfl).1

/-- C8, the code at a failing input: the transport answers the delete call with status 404
and no error, and `Delete` returns nil. -/
theorem Delete_status_404_returns_nil :
    users.Delete (answering 404 "") "divvyuser:7" fresh
      = (none, ⟨(), [⟨"DELETE", "/v2/prototype/user/divvyuser:7/delete", none⟩]⟩) := by
  rfl

/-- C10, the code at a failing input: a user with an empty Password and every other required
field set is not rejected; the create request is issued, with empty password fields. -/
theorem Create_empty_password_is_sent :
    (users.Create (answering 200 "ok")
        { Name := "J", Username := "jdoe", Email := "j@x.io", Password := "",
          AccessLevel := "BASIC_USER" } fresh).2.sent
      = [⟨"POST", "/v2/public/user/create",
          some (.user { Name := "J", Username := "jdoe", Email := "j@x.io", Password := "",
                        ConfirmPassword := "", AccessLevel := "BASIC_USER" })⟩]
    ∧ (users.Create (answering 200 "ok")
        { Name := "J", Username := "jdoe", Email := "j@x.io", Password := "",
          AccessLevel := "BASIC_USER" } fresh).1.2
      ≠ fmt.Errorf "[-] user's name, username, email, password and accesslevel must be set" := by
  decide

theorem zeroOnError_zero {α : Type} (zero : α) (e : Err) : ZeroOnError zero (zero, e) :=
  ⟨fun _ => rfl, fun h => absurd rfl h⟩

theorem zeroOnError_nil {α : Type} (zero ret : α) : ZeroOnError zero (ret, none) :=
  ⟨fun h => absurd rfl h, fun _ => rfl⟩

/-- C9: no partial results.  For each of the thirteen methods that return a value together
with an error, on every client, input and world: when the returned error is non-nil the
returned value is the zero value (empty record, nil slice, nil map or nil pointer), and when
the returned value is not the zero value the error is nil. -/
theorem zero_value_on_error {σ : Type} (c : Client σ) (w : World σ) :
    ZeroOnError [] (c.ListInsights w).1
    ∧ (∀ id source, ZeroOnError none (c.GetInsight id source w).1)
    ∧ (∀ id source, ZeroOnError [] (c.GetInsight7Days id source w).1)
    ∧ ZeroOnError {} (users.List c w).1
    ∧ (∀ user, ZeroOnError {} (users.Create c user w).1)
    ∧ (∀ api_user, ZeroOnError {} (users.CreateAPIUser c api_user w).1)
    ∧ (∀ saml_user, ZeroOnError {} (users.CreateSAMLUser c saml_user w).1)
    ∧ ZeroOnError {} (users.CurrentUserInfo c w).1
    ∧ (∀ user_id, ZeroOnError {} (users.Get2FAStatus c user_id w).1)
    ∧ ZeroOnError {} (users.Enable2FACurrentUser c w).1
    ∧ (∀ user_id, ZeroOnError {} (users.ConvertToAPIOnly c user_id w).1)
    ∧ (∀ username, ZeroOnError {} (users.GetUserByUsername c username w).1)
    ∧ (∀ user_id, ZeroOnError {} (users.GetUserByID c user_id w).1) := by
  refine ⟨?_, ?_, ?_, ?_, ?_, ?_, ?_, ?_, ?_, ?_, ?_, ?_, ?_⟩
  · unfold Client.ListInsights
    repeat' (first | split | dsimp only)
    all_goals first | exact zeroOnError_zero _ _ | exact zeroOnError_nil _ _
  · intro id source
    unfold Client.GetInsight
    repeat' (first | split | dsimp only)
    all_goals first | exact zeroOnError_zero _ _ | exact zeroOnError_nil _ _
  · intro id source
    unfold Client.GetInsight7Days
    repeat' (first | split | dsimp only)
    all_goals first | exact zeroOnError_zero _ _ | exact zeroOnError_nil _ _
  · unfold users.List
    repeat' (first | split | dsimp only)
    all_goals first | exact zeroOnError_zero _ _ | exact zeroOnError_nil _ _
  · intro user
    unfold users.Create
    repeat' (first | split | dsimp only)
    all_goals first | exact zeroOnError_zero _ _ | exact zeroOnError_nil _ _
  · intro api_user
    unfold users.CreateAPIUser
    repeat' (first | split | dsimp only)
    all_goals first | exact zeroOnError_zero _ _ | exact zeroOnError_nil _ _
  · intro saml_user
    unfold users.CreateSAMLUser
    repeat' (first | split | dsimp only)
    all_goals first | exact zeroOnError_zero _ _ | exact zeroOnError_nil _ _
  · unfold users.CurrentUserInfo
    repeat' (first | split | dsimp only)
    all_goals first | exact zeroOnError_zero _ _ | exact zeroOnError_nil _ _
  · intro user_id
    unfold users.Get2FAStatus
    repeat' (first | split | dsimp only)
    all_goals first | exact zeroOnError_zero _ _ | exact zeroOnError_nil _ _
  · unfold users.Enable2FACurrentUser
    repeat' (first | split | dsimp only)
    all_goals first | exact zeroOnError_zero _ _ | exact zeroOnError_nil _ _
  · intro user_id
    unfold users.ConvertToAPIOnly
    repeat' (first | split | dsimp only)
    all_goals first | exact zeroOnError_zero _ _ | exact zeroOnError_nil _ _
  · intro username
    unfold users.GetUserByUsername
    repeat' (first | split | dsimp only)
    all_goals first | exact zeroOnError_zero _ _ | exact zeroOnError_nil _ _
  · intro user_id
    unfold users.GetUserByID
    repeat' (first | split | dsimp only)
    all_goals first | exact zeroOnError_zero _ _ | exact zeroOnError_nil _ _

/-! ## The lookups over a listing -/

theorem GetUserByID_loop_none (user_id : Int) (l : List UserDetails)
    (h : ∀ v ∈ l, v.ID ≠ user_id) : users.GetUserByID_loop user_id l = none := by
  induction l with
  | nil => rfl
  | cons a t ih =>
    have ha : a.ID ≠ user_id := h a (List.mem_cons_self a t)
    simp only [users.GetUserByID_loop, if_neg ha]
    exact ih (fun v hv => h v (List.mem_cons_of_mem a hv))

theorem GetUserByID_loop_first (user_id : Int) (l : List UserDetails)
    (h : ∃ v ∈ l, v.ID = user_id) :
    ∃ pre u post, l = pre ++ u :: post ∧ u.ID = user_id ∧ (∀ v ∈ pre, v.ID ≠ user_id)
      ∧ users.GetUserByID_loop user_id l = some u := by
  induction l with
  | nil =>
    obtain ⟨v, hv, _⟩ := h
    cases hv
  | cons a t ih =>
    by_cases ha : a.ID = user_id
    · refine ⟨[], a, t, rfl, ha, ?_, ?_⟩
      · intro v hv
        cases hv
      · simp only [users.GetUserByID_loop, if_pos ha]
    · have ht : ∃ v ∈ t, v.ID = user_id := by
        obtain ⟨v, hv, hid⟩ := h
        rcases List.mem_cons.mp hv with rfl | hv
        · exact absurd hid ha
        · exact ⟨v, hv, hid⟩
      obtain ⟨pre, u, post, hl, hu, hpre, hloop⟩ := ih ht
      refine ⟨a :: pre, u, post, by rw [hl]; rfl, hu, ?_, ?_⟩
      · intro v hv
        rcases List.mem_cons.mp hv with rfl | hv
        · exact ha
        · exact hpre v hv
      · simp only [users.GetUserByID_loop, if_neg ha]
        exact hloop

/-- C6: `GetUserByID`.  On a listing returned by `List`: when some record has the ID, the
result is the first such record in listing order with a nil error; when no record has the ID,
the result is the zero record with the not-found error.  No further request is issued. -/
theorem GetUserByID_first_match {σ : Type} (c : Client σ) (user_id : Int) (w w1 : World σ)
    (listing : UserList) (hList : users.List c w = ((listing, none), w1)) :
    ((∃ v ∈ listing.Users, v.ID = user_id) →
      ∃ pre u post, listing.Users = pre ++ u :: post ∧ u.ID = user_id
        ∧ (∀ v ∈ pre, v.ID ≠ user_id)
        ∧ users.GetUserByID c user_id w = ((u, none), w1))
    ∧ ((∀ v ∈ listing.Users, v.ID ≠ user_id) →
      users.GetUserByID c user_id w
        = (({}, fmt.Errorf ("[-] ERROR: Found no user with user_id: " ++ toString user_id)),
            w1)) := by
  constructor
  · intro h
    obtain ⟨pre, u, post, hl, hu, hpre, hloop⟩ := GetUserByID_loop_first user_id listing.Users h
    refine ⟨pre, u, post, hl, hu, hpre, ?_⟩
    unfold users.GetUserByID
    rw [hList]
    simp only [hloop]
  · intro h
    unfold users.GetUserByID
    rw [hList]
    simp only [GetUserByID_loop_none user_id listing.Users h]
    rfl

/-- C6 at ID 42 in a listing with IDs 1, 42, 99, and in a listing with IDs 1, 2, 3. -/
theorem GetUserByID_first_match_witness :
    (∃ pre u post,
        [({ Username := "ann", ID := 1 } : UserDetails), { Username := "bob", ID := 42 },
          { Username := "dee", ID := 99 }] = pre ++ u :: post
        ∧ u.ID = 42 ∧ (∀ v ∈ pre, v.ID ≠ 42)
        ∧ users.GetUserByID (listingOfIDs 1 42 99) 42 fresh
          = ((u, none), ⟨(), [⟨"GET", "/v2/public/users/list", none⟩]⟩))
    ∧ users.GetUserByID (listingOfIDs 1 2 3) 42 fresh
        = (({}, fmt.Errorf "[-] ERROR: Found no user with user_id: 42"),
            ⟨(), [⟨"GET", "/v2/public/users/list", none⟩]⟩) :=
  ⟨(GetUserByID_first_match (listingOfIDs 1 42 99) 42 fresh
      ⟨(), [⟨"GET", "/v2/public/users/list", none⟩]⟩ _ rfl).1
      ⟨{ Username := "bob", ID := 42 }, by decide, rfl⟩,
   (GetUserByID_first_match (listingOfIDs 1 2 3) 42 fresh
      ⟨(), [⟨"GET", "/v2/public/users/list", none⟩]⟩ _ rfl).2 (by decide)⟩

theorem DeleteByUsername_loop_no_match (lowered : String) (l : List UserDetails) (id : String)
    (h : ∀ v ∈ l, v.Username ≠ lowered) : users.DeleteByUsername_loop lowered l id = id := by
  induction l generalizing id with
  | nil => rfl
  | cons a t ih =>
    have ha : a.Username ≠ lowered := h a (List.mem_cons_self a t)
    simp only [users.DeleteByUsername_loop, if_neg ha]
    exact ih id (fun v hv => h v (List.mem_cons_of_mem a hv))

theorem DeleteByUsername_loop_last (lowered : String) (pre post : List UserDetails)
    (u : UserDetails) (id : String) (hu : u.Username = lowered)
    (hpost : ∀ v ∈ post, v.Username ≠ lowered) :
    users.DeleteByUsername_loop lowered (pre ++ u :: post) id = u.ResourceID := by
  induction pre generalizing id with
  | nil =>
    simp only [List.nil_append, users.DeleteByUsername_loop, if_pos hu]
    exact DeleteByUsername_loop_no_match lowered post u.ResourceID hpost
  | cons a t ih =>
    simp only [List.cons_append, users.DeleteByUsername_loop]
    split
    · exact ih a.ResourceID
    · exact ih id

/-- A listing with a matching record has a last matching record. -/
theorem exists_last_match (lowered : String) (l : List UserDetails)
    (h : ∃ v ∈ l, v.Username = lowered) :
    ∃ pre u post, l = pre ++ u :: post ∧ u.Username = lowered
      ∧ ∀ v ∈ post, v.Username ≠ lowered := by
  induction l with
  | nil =>
    obtain ⟨v, hv, _⟩ := h
    cases hv
  | cons a t ih =>
    by_cases ht : ∃ v ∈ t, v.Username = lowered
    · obtain ⟨pre, u, post, hl, hu, hpost⟩ := ih ht
      exact ⟨a :: pre, u, post, by rw [hl]; rfl, hu, hpost⟩
    · have ha : a.Username = lowered := by
        obtain ⟨v, hv, hname⟩ := h
        rcases List.mem_cons.mp hv with rfl | hv
        · exact hname
        · exact absurd ⟨v, hv, hname⟩ ht
      refine ⟨[], a, t, rfl, ha, ?_⟩
      intro v hv hname
      exact ht ⟨v, hv, hname⟩

/-- Running `DeleteByUsername` after a successful `List`: the sentinel test on the scanned ID, then
`Delete`, whose result is passed on as it is. -/
theorem DeleteByUsername_of_list {σ : Type} (c : Client σ) (username : String) (w w1 : World σ)
    (listing : UserList) (hList : users.List c w = ((listing, none), w1)) :
    users.DeleteByUsername c username w =
      if users.DeleteByUsername_loop (c.ToLower username) listing.Users "" = "" then
        (fmt.Errorf "[-] ERROR: Username not found", w1)
      else
        users.Delete c (users.DeleteByUsername_loop (c.ToLower username) listing.Users "") w1 := by
  unfold users.DeleteByUsername
  rw [hList]
  dsimp only
  split
  · rfl
  · split <;> rename_i heq <;> rw [heq]

theorem Delete_sent {σ : Type} (c : Client σ) (user_resource_id : String) (w : World σ) :
    (users.Delete c user_resource_id w).2.sent
      = w.sent ++ [⟨"DELETE", "/v2/prototype/user/" ++ user_resource_id ++ "/delete", none⟩] := by
  unfold users.Delete
  simp only [Client.makeRequest]
  split <;> rename_i heq <;> simp only [Prod.mk.injEq] at heq
  · rw [← heq.2]
    rfl
  · split <;> rw [← heq.2] <;> rfl

/-- C5 fails as stated: the listing holds a record whose stored username is the lowered
input "jdoe", its resource ID being empty, and `DeleteByUsername` issues no delete call and
returns the not-found error. -/
theorem DeleteByUsername_match_reported_not_found :
    users.List (listingOfJdoe "") fresh
      = (({ Users := [{ Username := "jdoe", ID := 7, ResourceID := "" }], Count := 1 }, none),
          ⟨(), [⟨"GET", "/v2/public/users/list", none⟩]⟩)
    ∧ (∃ v ∈ [({ Username := "jdoe", ID := 7, ResourceID := "" } : UserDetails)],
        v.Username = (listingOfJdoe "").ToLower "jdoe")
    ∧ users.DeleteByUsername (listingOfJdoe "") "jdoe" fresh
      = (fmt.Errorf "[-] ERROR: Username not found",
          ⟨(), [⟨"GET", "/v2/public/users/list", none⟩]⟩) := by
  refine ⟨rfl, ⟨_, List.mem_singleton.mpr rfl, by decide⟩, rfl⟩

/-- C5, amended: `DeleteByUsername` on a listing returned by `List`.  When the listing holds a
record whose stored username equals the lowered input and the last such record in listing
order has a non-empty resource ID, one delete call is issued, for that record's resource ID,
and the result of `Delete` is returned.  No delete call is issued and the not-found error is
returned exactly when no record matches or the last matching record has an empty resource
ID. -/
theorem DeleteByUsername_last_match {σ : Type} (c : Client σ) (username : String)
    (w w1 : World σ) (listing : UserList)
    (hList : users.List c w = ((listing, none), w1)) :
    (∀ pre u post, listing.Users = pre ++ u :: post → u.Username = c.ToLower username →
      (∀ v ∈ post, v.Username ≠ c.ToLower username) → u.ResourceID ≠ "" →
        users.DeleteByUsername c username w = users.Delete c u.ResourceID w1
        ∧ (users.DeleteByUsername c username w).2.sent
          = w1.sent ++ [⟨"DELETE", "/v2/prototype/user/" ++ u.ResourceID ++ "/delete", none⟩])
    ∧ (users.DeleteByUsername c username w = (fmt.Errorf "[-] ERROR: Username not found", w1)
        ↔ ((∀ v ∈ listing.Users, v.Username ≠ c.ToLower username)
          ∨ ∃ pre u post, listing.Users = pre ++ u :: post ∧ u.Username = c.ToLower username
              ∧ (∀ v ∈ post, v.Username ≠ c.ToLower username) ∧ u.ResourceID = "")) := by
  have hrun := DeleteByUsername_of_list c username w w1 listing hList
  have hfound : ∀ pre u post, listing.Users = pre ++ u :: post →
      u.Username = c.ToLower username → (∀ v ∈ post, v.Username ≠ c.ToLower username) →
      u.ResourceID ≠ "" →
      users.DeleteByUsername c username w = users.Delete c u.ResourceID w1 := by
    intro pre u post hl hu hpost hid
    rw [hrun, hl, DeleteByUsername_loop_last (c.ToLower username) pre post u "" hu hpost,
      if_neg hid]
  refine ⟨?_, ?_, ?_⟩
  · intro pre u post hl hu hpost hid
    refine ⟨hfound pre u post hl hu hpost hid, ?_⟩
    rw [hfound pre u post hl hu hpost hid]
    exact Delete_sent c u.ResourceID w1
  · intro hres
    by_cases hm : ∃ v ∈ listing.Users, v.Username = c.ToLower username
    · obtain ⟨pre, u, post, hl, hu, hpost⟩ := exists_last_match _ _ hm
      by_cases hid : u.ResourceID = ""
      · exact Or.inr ⟨pre, u, post, hl, hu, hpost, hid⟩
      · exfalso
        have hsent := Delete_sent c u.ResourceID w1
        rw [← hfound pre u post hl hu hpost hid, hres] at hsent
        have hlen := congrArg List.length hsent
        simp at hlen
    · left
      intro v hv hname
      exact hm ⟨v, hv, hname⟩
  · rintro (hno | ⟨pre, u, post, hl, hu, hpost, hid⟩)
    · rw [hrun, DeleteByUsername_loop_no_match _ _ _ hno, if_pos rfl]
    · rw [hrun, hl, DeleteByUsername_loop_last (c.ToLower username) pre post u "" hu hpost,
        if_pos hid]

/-- C5, amended, at username "jdoe" against a listing whose record "jdoe" has resource ID
"divvyuser:7". -/
theorem DeleteByUsername_last_match_witness :
    (users.DeleteByUsername (listingOfJdoe "divvyuser:7") "jdoe" fresh).2.sent
      = [⟨"GET", "/v2/public/users/list", none⟩]
        ++ [⟨"DELETE", "/v2/prototype/user/" ++ "divvyuser:7" ++ "/delete", none⟩] :=
  ((DeleteByUsername_last_match (listingOfJdoe "divvyuser:7") "jdoe" fresh
      ⟨(), [⟨"GET", "/v2/public/users/list", none⟩]⟩ _ rfl).1
    [] { Username := "jdoe", ID := 7, ResourceID := "divvyuser:7" } [] rfl (by decide)
    (fun _ hv => nomatch hv) (by decide)).2

end InsightCloudSec
